import Mathlib

/-!
Verification of the conflict-diagnosis engine of the LALRPOP parser generator
(`src/lalrpop/src/lr1/error/mod.rs`).  The data model of grammars, items and
examples is embedded shallowly; panics in the source are modelled by `Option`
(`none` marks a panic).  External collaborators (the backtracing `Tracer`) are
modelled as function parameters, following the narrow interface the engine
uses.
-/

namespace Lalrpop

/-- Modelled from the spec: terminal identifiers (the `grammar::repr` value
model is outside the sources under analysis); terminals compare by name. -/
abbrev TerminalString := String

/-- Modelled from the spec: nonterminal identifiers; compare by name. -/
abbrev NonterminalString := String

/-- Modelled from the spec: a grammar symbol is a terminal or a nonterminal. -/
inductive Symbol where
  | Terminal (t : TerminalString)
  | Nonterminal (nt : NonterminalString)
deriving DecidableEq, Repr

/-- Modelled from the spec: a production has an owning nonterminal, an ordered
right-hand side of symbols and a source span (spans are opaque tags here). -/
structure Production where
  nonterminal : NonterminalString
  symbols : List Symbol
  span : Nat
deriving DecidableEq, Repr

/-- Modelled from the spec: a lookahead is a terminal or end-of-input. -/
inductive Lookahead where
  | Terminal (t : TerminalString)
  | EOF
deriving DecidableEq, Repr

/-- Modelled from the spec: an LR(1) item is a production, a dot position
`index` into its right-hand side, and a lookahead. -/
structure Item where
  production : Production
  index : Nat
  lookahead : Lookahead
deriving DecidableEq, Repr

/-- Modelled from the spec: the LR(0) form of an item drops the lookahead. -/
structure LR0Item where
  production : Production
  index : Nat
deriving DecidableEq, Repr

/-- Modelled from the spec: forgetting the lookahead component of an item. -/
def Item.to_lr0 (i : Item) : LR0Item :=
  ⟨i.production, i.index⟩

/-- Modelled from the spec: an item can shift while its dot has not reached the
end of the right-hand side. -/
def Item.can_shift (i : Item) : Bool :=
  decide (i.index < i.production.symbols.length)

/-- Modelled from the spec: the conflicting action is a shift to a target
state or a reduce of a competing production. -/
inductive Action where
  | Shift (target : Nat)
  | Reduce (production : Production)
deriving DecidableEq, Repr

/-- Is the action a shift?  Used to state the precedence conditions. -/
def Action.is_shift : Action → Bool
  | .Shift _ => true
  | .Reduce _ => false

/-- Modelled from the spec: a conflict records its originating state, the
reduce-side production, and the competing action. -/
structure Conflict where
  state : Nat
  production : Production
  action : Action
deriving DecidableEq, Repr

/-- Modelled from the spec: one element of an example's symbol sequence, either
a plain symbol or a position already folded into a sub-reduction. -/
inductive ExampleSymbol where
  | Symbol (s : Symbol)
  | Epsilon
deriving DecidableEq, Repr

/-- Modelled from the spec: a reduction covers the contiguous symbol range
`start..«end»` and names the nonterminal it reduces to. -/
structure Reduction where
  nonterminal : NonterminalString
  start : Nat
  «end» : Nat
deriving DecidableEq, Repr

/-- Modelled from the spec: a concrete derivation — a symbol sequence, a
cursor marking the conflict point, and the reductions already performed. -/
structure Example where
  symbols : List ExampleSymbol
  cursor : Nat
  reductions : List Reduction
deriving DecidableEq, Repr

/-- Modelled from the spec: the engine reads the grammar only through the
`productions_for` lookup (and display capabilities, irrelevant here). -/
structure Grammar where
  productions_for : NonterminalString → List Production

/-- Modelled from the spec: a state exposes its item set and, per lookahead,
the conflicts registered on it; the per-state conflict collection is kept in
registration order. -/
structure State where
  items : List Item
  conflicts : List (Lookahead × List Conflict)

/-- Modelled from the spec: the external backtracing collaborator, reduced to
the two entry points the engine calls.  `backtrace_shift` receives the origin
state and the LR(0) item being shifted; `backtrace_reduce` receives the origin
state and the synthetic completed item. -/
structure Tracer where
  backtrace_shift : Nat → LR0Item → List Example
  backtrace_reduce : Nat → Item → List Example

/-- The six-way classification produced by the classifier
(`ConflictClassification` in the source). -/
inductive ConflictClassification where
  | Ambiguity (action : Example) (reduce : Example)
  | Precedence (shift : Example) (reduce : Example) (nonterminal : NonterminalString)
  | SuggestInline (shift : Example) (reduce : Example) (nonterminal : NonterminalString)
  | SuggestQuestion (shift : Example) (reduce : Example) (nonterminal : NonterminalString)
      (symbol : Symbol)
  | InsufficientLookahead (action : Example) (reduce : Example)
  | Naive
deriving DecidableEq, Repr

/-- The order `itertools::cartesian_product` enumerates pairs in: all partners
of the first element, then of the second, and so on. -/
def cartesian_product (xs : List α) (ys : List β) : List (α × β) :=
  xs.flatMap (fun x => ys.map (fun y => (x, y)))

/-- Modelled from the spec: a `LookaheadSet` accumulates lookaheads by
repeated deduplicating insertion. -/
abbrev LookaheadSet := List Lookahead

/-- Modelled from the spec: deduplicating insertion into a `LookaheadSet`. -/
def lookahead_set_insert (s : LookaheadSet) (x : Lookahead) : LookaheadSet :=
  if x ∈ s then s else s ++ [x]

/-- Modelled from the spec: the `entry(..).or_insert_with(..).insert(..)` step
on the grouping map of `conflicting_shift_items`.  The map (`util::Map`, a
hash map outside the sources under analysis) is modelled as an association
list in first-insertion order; theorems about enumeration-order dependence
quantify over reorderings separately. -/
def map_insert_lookahead (m : List (LR0Item × LookaheadSet)) (k : LR0Item)
    (x : Lookahead) : List (LR0Item × LookaheadSet) :=
  match m with
  | [] => [(k, lookahead_set_insert [] x)]
  | (k2, s) :: rest =>
    if k2 = k then (k2, lookahead_set_insert s x) :: rest
    else (k2, s) :: map_insert_lookahead rest k x

/-- Embeds `conflicting_shift_items`: panics on an `EOF` lookahead (modelled
as `none`), otherwise groups the items of the state that can shift the
lookahead terminal by their LR(0) form, accumulating their lookaheads. -/
def conflicting_shift_items (state : State) (lookahead : Lookahead)
    (_conflict : Conflict) : Option (List (LR0Item × LookaheadSet)) :=
  match lookahead with
  | .EOF => none
  | .Terminal s =>
    let lasym := Symbol.Terminal s
    some (((state.items.filter (fun i => i.can_shift)).filter
        (fun i => decide (i.production.symbols[i.index]? = some lasym))).foldl
      (fun m i => map_insert_lookahead m i.to_lr0 i.lookahead) [])

/-- The flattening step of `shift_examples`: concatenate, for every grouped
item, the examples its shift-backtrace yields. -/
def shift_examples_from_groups (tr : Tracer) (conflict : Conflict)
    (groups : List (LR0Item × LookaheadSet)) : List Example :=
  groups.flatMap (fun g => tr.backtrace_shift conflict.state g.1)

/-- Embeds `shift_examples`: index into the states (a panic on an out-of-range
state index is modelled as `none`), group the conflicting shift items, and
flatten the backtraces of every group. -/
def shift_examples (tr : Tracer) (states : List State) (lookahead : Lookahead)
    (conflict : Conflict) : Option (List Example) :=
  match states[conflict.state]? with
  | none => none
  | some state =>
    (conflicting_shift_items state lookahead conflict).map
      (shift_examples_from_groups tr conflict)

/-- Embeds `reduce_examples`: build the synthetic completed item (dot at the
end of the production) and collect the reduce-backtrace examples. -/
def reduce_examples (tr : Tracer) (state : Nat) (production : Production)
    (lookahead : Lookahead) : List Example :=
  tr.backtrace_reduce state ⟨production, production.symbols.length, lookahead⟩

/-- One insertion step of the stable sort: the new example is placed after
every already-sorted example of strictly smaller length and before the first
example of greater-or-equal length, so equal lengths keep their order. -/
def insert_by_len (e : Example) : List Example → List Example
  | [] => [e]
  | f :: fs =>
    if f.symbols.length < e.symbols.length then f :: insert_by_len e fs
    else e :: f :: fs

/-- Embeds the two `sort_by` calls of `classify`: a stable sort ascending by
the length of the example's symbol sequence.  A stable sort is determined
uniquely by its comparator, so the structurally recursive insertion sort
below computes exactly what the source's stable `sort_by` computes. -/
def sort_by_len : List Example → List Example
  | [] => []
  | e :: es => insert_by_len e (sort_by_len es)

/-- The filter chain of `try_classify_ambiguity`: pairs of the cartesian
product whose symbol sequences and cursors agree, in product order. -/
def qualifying_ambiguity_pairs (action_examples reduce_examples : List Example) :
    List (Example × Example) :=
  ((cartesian_product action_examples reduce_examples).filter
      (fun p => decide (p.1.symbols = p.2.symbols))).filter
    (fun p => decide (p.1.cursor = p.2.cursor))

/-- The body mapped over a qualifying pair in `try_classify_ambiguity`: the
precedence test (shift action, terminal lookahead, and the reduce production
shaped `T = T l T`), defaulting to `Ambiguity`. -/
def classify_ambiguity_pair (lookahead : Lookahead) (conflict : Conflict)
    (p : Example × Example) : ConflictClassification :=
  match conflict.action, lookahead with
  | .Shift _, .Terminal term =>
    let nt := conflict.production.nonterminal
    if conflict.production.symbols.length = 3 ∧
        conflict.production.symbols[0]? = some (.Nonterminal nt) ∧
        conflict.production.symbols[1]? = some (.Terminal term) ∧
        conflict.production.symbols[2]? = some (.Nonterminal nt) then
      .Precedence p.1 p.2 conflict.production.nonterminal
    else
      .Ambiguity p.1 p.2
  | _, _ => .Ambiguity p.1 p.2

/-- Embeds `try_classify_ambiguity`: classify the first qualifying pair of the
cartesian product, if any. -/
def try_classify_ambiguity (lookahead : Lookahead) (conflict : Conflict)
    (action_examples reduce_examples : List Example) :
    Option ConflictClassification :=
  ((qualifying_ambiguity_pairs action_examples reduce_examples).head?).map
    (classify_ambiguity_pair lookahead conflict)

/-- Embeds `inner_suffix`: the symbols located after the first reduction's end
offset.  The `reductions[0]` access of the source panics on an empty
reductions list; this is modelled by `none` (all callers guard the access). -/
def inner_suffix (ex : Example) : Option (List ExampleSymbol) :=
  ex.reductions.head?.map (fun r => ex.symbols.drop r.«end»)

/-- The filter chain of `try_classify_inline`: pairs where both examples have
exactly two reductions, the reduce example's two reductions name different
nonterminals, and the inner suffixes coincide, in product order. -/
def qualifying_inline_pairs (action_examples reduce_examples : List Example) :
    List (Example × Example) :=
  ((((cartesian_product action_examples reduce_examples).filter
        (fun p => decide (p.1.reductions.length = 2))).filter
      (fun p => decide (p.2.reductions.length = 2))).filter
    (fun p => decide (¬ p.2.reductions[0]?.map Reduction.nonterminal =
        p.2.reductions[1]?.map Reduction.nonterminal))).filter
    (fun p => decide (inner_suffix p.1 = inner_suffix p.2))

/-- The `nt_productions.len() == 2` loop of `try_classify_inline`: succeeds
with the single symbol exactly when the candidate nonterminal has two
productions, one with an empty right-hand side and one with a single
symbol (in either order, the `(0,1)` direction checked first). -/
def question_check (nt_productions : List Production) : Option Symbol :=
  match nt_productions with
  | [a, b] =>
    match a.symbols, b.symbols with
    | [], [s] => some s
    | [s], [] => some s
    | _, _ => none
  | _ => none

/-- The body mapped over a qualifying pair in `try_classify_inline`: suggest
the `?` operator when the candidate nonterminal has the empty/singleton
production pair, otherwise suggest inlining it.  The empty-reductions arm is
unreachable: qualifying pairs carry exactly two reductions. -/
def classify_inline_pair (g : Grammar) (p : Example × Example) :
    ConflictClassification :=
  match p.2.reductions with
  | r0 :: _ =>
    let nt := r0.nonterminal
    match question_check (g.productions_for nt) with
    | some s => .SuggestQuestion p.1 p.2 nt s
    | none => .SuggestInline p.1 p.2 nt
  | [] => .SuggestInline p.1 p.2 ""

/-- Embeds `try_classify_inline`.  The source ignores its lookahead and
conflict parameters (`_lookahead`, `_conflict`). -/
def try_classify_inline (g : Grammar) (_lookahead : Lookahead)
    (_conflict : Conflict) (action_examples reduce_examples : List Example) :
    Option ConflictClassification :=
  ((qualifying_inline_pairs action_examples reduce_examples).head?).map
    (classify_inline_pair g)

/-- The gathering step at the top of `classify`: shift-backtrace examples for
a shift conflict, reduce-backtrace examples for a competing reduce. -/
def gather_action_examples (tr : Tracer) (states : List State)
    (lookahead : Lookahead) (conflict : Conflict) : Option (List Example) :=
  match conflict.action with
  | .Shift _ => shift_examples tr states lookahead conflict
  | .Reduce production =>
    some (reduce_examples tr conflict.state production lookahead)

/-- The body of `classify` after the action examples are gathered: sort both
lists, try the ambiguity tier, then the inlining tier, then fall back to the
positional zip (`InsufficientLookahead`) or `Naive`. -/
def classify_core (g : Grammar) (tr : Tracer) (lookahead : Lookahead)
    (conflict : Conflict) (action_examples0 : List Example) :
    ConflictClassification :=
  let action_examples := sort_by_len action_examples0
  let res := sort_by_len
    (reduce_examples tr conflict.state conflict.production lookahead)
  match try_classify_ambiguity lookahead conflict action_examples res with
  | some cl => cl
  | none =>
    match try_classify_inline g lookahead conflict action_examples res with
    | some cl => cl
    | none =>
      match (action_examples.zip res).head? with
      | some ar => .InsufficientLookahead ar.1 ar.2
      | none => .Naive

/-- Embeds `classify`; `none` propagates the panics of the gathering step. -/
def classify (g : Grammar) (tr : Tracer) (states : List State)
    (lookahead : Lookahead) (conflict : Conflict) :
    Option ConflictClassification :=
  (gather_action_examples tr states lookahead conflict).map
    (classify_core g tr lookahead conflict)

/-- The `classify` body evaluated over an explicitly given enumeration of the
deduplicated shift-item map, used to analyse how the hash map's iteration
order can influence the classification of a shift conflict. -/
def classify_from_groups (g : Grammar) (tr : Tracer) (lookahead : Lookahead)
    (conflict : Conflict) (groups : List (LR0Item × LookaheadSet)) :
    ConflictClassification :=
  classify_core g tr lookahead conflict
    (shift_examples_from_groups tr conflict groups)

/-- Modelled from the spec: the data of the shared not-LR(1) message skeleton
(`report_error_not_lr1_core`); the message builder itself is outside the
sources under analysis, so the message is modelled as the values the source
embeds into the document. -/
structure NotLr1Core where
  prefix_symbols : List ExampleSymbol
  lookahead : Lookahead
  reduced_nonterminal : Option NonterminalString
  action_picture : Example
  cited_nonterminal : NonterminalString
  reduce_picture : Example
deriving DecidableEq, Repr

/-- Embeds `report_error_not_lr1_core`: the skeleton shows the longer of the
two cursor prefixes, the lookahead, the conflicting action's nonterminal when
it is a reduce, both pictures, and — through the unguarded
`reduce.reductions[0]` access, modelled as `none` on an empty list — the
nonterminal of the reduce example's first reduction. -/
def report_error_not_lr1_core (lookahead : Lookahead) (conflict : Conflict)
    (action reduce : Example) : Option NotLr1Core :=
  reduce.reductions.head?.map (fun r0 =>
    ⟨if reduce.cursor ≤ action.cursor then action.symbols.take action.cursor
      else reduce.symbols.take reduce.cursor,
     lookahead,
     (match conflict.action with
      | .Shift _ => none
      | .Reduce production => some production.nonterminal),
     action,
     r0.nonterminal,
     reduce⟩)

/-- Modelled from the spec: the structured diagnostic document, identified by
the builder routine invoked and the values embedded into it. -/
inductive Message where
  | ambiguity (action reduce : Example)
  | precedence (shift reduce : Example) (nonterminal : NonterminalString)
  | suggestInline (core : NotLr1Core) (nonterminal : NonterminalString)
  | suggestQuestion (core : NotLr1Core) (nonterminal : NonterminalString)
      (symbol : Symbol)
  | insufficientLookahead (core : NotLr1Core)
  | naive (items : List Item) (lookahead : Lookahead)
      (nonterminal : NonterminalString) (other : Option NonterminalString)
deriving DecidableEq, Repr

/-- Embeds `report_error`: classify, then dispatch to the builder routine of
the matching variant.  `none` models the panics reachable from here: the
EOF-shift panic inside gathering, the `reductions[0]` access of the not-LR(1)
skeleton, and the state indexing of the naive path. -/
def report_error (g : Grammar) (tr : Tracer) (states : List State)
    (lookahead : Lookahead) (conflict : Conflict) : Option Message :=
  match classify g tr states lookahead conflict with
  | none => none
  | some (.Ambiguity action reduce) => some (.ambiguity action reduce)
  | some (.Precedence shift reduce nt) => some (.precedence shift reduce nt)
  | some (.SuggestInline shift reduce nt) =>
    (report_error_not_lr1_core lookahead conflict shift reduce).map
      (fun core => .suggestInline core nt)
  | some (.SuggestQuestion shift reduce nt s) =>
    (report_error_not_lr1_core lookahead conflict shift reduce).map
      (fun core => .suggestQuestion core nt s)
  | some (.InsufficientLookahead action reduce) =>
    (report_error_not_lr1_core lookahead conflict action reduce).map
      (fun core => .insufficientLookahead core)
  | some .Naive =>
    (states[conflict.state]?).map (fun state =>
      Message.naive state.items lookahead conflict.production.nonterminal
        (match conflict.action with
         | .Shift _ => none
         | .Reduce production => some production.nonterminal))

/-- The enumeration order of `report_errors`: states in index order, then the
state's registered (lookahead, conflict) pairs in collection order. -/
def registered_conflicts (states : List State) : List (Lookahead × Conflict) :=
  states.flatMap (fun state =>
    state.conflicts.flatMap (fun lc => lc.2.map (fun c => (lc.1, c))))

/-- Embeds `report_errors`: one message per registered conflict, in
enumeration order; a panic anywhere aborts the whole pass (`none`). -/
def report_errors (g : Grammar) (tr : Tracer) (states : List State) :
    Option (List Message) :=
  (registered_conflicts states).mapM
    (fun lc => report_error g tr states lc.1 lc.2)

/-- Does the classification belong to the ambiguity tier (the two variants
`try_classify_ambiguity` can produce)? -/
def ConflictClassification.is_ambiguity_or_precedence :
    ConflictClassification → Bool
  | .Ambiguity _ _ => true
  | .Precedence _ _ _ => true
  | _ => false

/-- The three precedence conditions of the spec, bundled: the conflicting
action is a shift, the lookahead is a terminal, and the reduce production is
exactly `[Nonterminal T, Terminal lookahead, Nonterminal T]` for the
production's own head nonterminal `T`. -/
def precedence_pattern (lookahead : Lookahead) (conflict : Conflict) : Bool :=
  conflict.action.is_shift &&
  (match lookahead with
   | .Terminal term =>
     decide (conflict.production.symbols =
       [Symbol.Nonterminal conflict.production.nonterminal, Symbol.Terminal term,
        Symbol.Nonterminal conflict.production.nonterminal])
   | .EOF => false)

/-- The spec's wording of the `?`-suggestion shape: the candidate nonterminal
has exactly two productions, of which one has an empty right-hand side and
the other consists of exactly the symbol `s`. -/
def question_shape (prods : List Production) (s : Symbol) : Prop :=
  ∃ p q, (prods = [p, q] ∨ prods = [q, p]) ∧ p.symbols = [] ∧ q.symbols = [s]

/-- The spec's shortest-first invariant on a list of examples. -/
def sorted_by_len (l : List Example) : Prop :=
  List.Pairwise (fun e f => e.symbols.length ≤ f.symbols.length) l

/-! Concrete fixtures used by witnesses and counterexamples. -/

/-- A grammar with no productions at all. -/
def g0 : Grammar := ⟨fun _ => []⟩

/-- The production `E = E "+" E` of the canonical precedence scenario. -/
def pE : Production := ⟨"E", [.Nonterminal "E", .Terminal "+", .Nonterminal "E"], 0⟩

/-- The production `E = num`. -/
def pNum : Production := ⟨"E", [.Terminal "num"], 1⟩

/-- A derivation of `E + E` reduced once to `E`. -/
def exE : Example :=
  ⟨[.Symbol (.Nonterminal "E"), .Symbol (.Terminal "+"), .Symbol (.Nonterminal "E")],
   2, [⟨"E", 0, 3⟩]⟩

/-- The shift/reduce conflict on `"+"` for `E = E "+" E`. -/
def cE : Conflict := ⟨0, pE, .Shift 1⟩

/-- The conflicted state of the precedence scenario: `E = E (*) "+" E`. -/
def stE : State := ⟨[⟨pE, 1, .EOF⟩], [(.Terminal "+", [cE])]⟩

/-- The one-state automaton of the precedence scenario. -/
def statesE : List State := [stE]

/-- A tracer that always finds the `E + E` derivation. -/
def trE : Tracer := ⟨fun _ _ => [exE], fun _ _ => [exE]⟩

/-- The grammar of the precedence scenario. -/
def gE : Grammar := ⟨fun _ => [pE, pNum]⟩

/-- An action example with two reductions for the inlining scenario. -/
def exA10 : Example :=
  ⟨[.Symbol (.Terminal "a"), .Symbol (.Terminal "c")], 0,
   [⟨"X", 0, 1⟩, ⟨"Y", 0, 2⟩]⟩

/-- A reduce example whose first reduction names the `Opt` nonterminal. -/
def exR10 : Example :=
  ⟨[.Symbol (.Terminal "b"), .Symbol (.Terminal "c")], 1,
   [⟨"Opt", 0, 1⟩, ⟨"Z", 0, 2⟩]⟩

/-- The empty production `Opt = `. -/
def pOptEmpty : Production := ⟨"Opt", [], 2⟩

/-- The singleton production `Opt = "sym"`. -/
def pOptSym : Production := ⟨"Opt", [.Terminal "sym"], 3⟩

/-- A grammar in which `Opt` has exactly the empty/singleton production pair. -/
def g10 : Grammar := ⟨fun nt => if nt = "Opt" then [pOptEmpty, pOptSym] else []⟩

/-- The competing reduce production of the reduce/reduce fixtures. -/
def pW : Production := ⟨"W", [.Terminal "w"], 4⟩

/-- The reduce production of the inlining scenario's conflict. -/
def pR10 : Production := ⟨"R", [.Terminal "r"], 5⟩

/-- A reduce/reduce conflict used by the inlining scenario. -/
def c10 : Conflict := ⟨0, pR10, .Reduce pW⟩

/-- A tracer returning the action example for the competing production and
the reduce example for the conflict's own production. -/
def tr10 : Tracer :=
  ⟨fun _ _ => [],
   fun _ item => if item.production = pW then [exA10] else [exR10]⟩

/-- The one-state automaton of the inlining scenario. -/
def states10 : List State := [⟨[], [(.EOF, [c10])]⟩]

/-- A two-symbol example, discovered before the shorter one. -/
def exLong : Example := ⟨[.Symbol (.Terminal "a"), .Symbol (.Terminal "b")], 0, []⟩

/-- A one-symbol example, discovered after the longer one. -/
def exShort : Example := ⟨[.Symbol (.Terminal "a")], 0, []⟩

/-- The production `S = "x"` of the unsorted-gathering fixture. -/
def pX5 : Production := ⟨"S", [.Terminal "x"], 6⟩

/-- A shift conflict in state 0 of the unsorted-gathering fixture. -/
def c5 : Conflict := ⟨0, pX5, .Shift 1⟩

/-- The conflicted state of the unsorted-gathering fixture: `S = (*) "x"`. -/
def st5 : State := ⟨[⟨pX5, 0, .EOF⟩], []⟩

/-- The one-state automaton of the unsorted-gathering fixture. -/
def states5 : List State := [st5]

/-- A tracer yielding the longer example before the shorter one. -/
def tr5 : Tracer := ⟨fun _ _ => [exLong, exShort], fun _ _ => []⟩

/-- A one-symbol example used to witness stability of the sort. -/
def exTieA : Example := ⟨[.Symbol (.Terminal "t")], 0, []⟩

/-- Another one-symbol example, distinct from `exTieA`. -/
def exTieB : Example := ⟨[.Symbol (.Terminal "u")], 0, []⟩

/-- A reduce/reduce conflict for the empty-example-lists fixture. -/
def c4 : Conflict := ⟨0, pX5, .Reduce pW⟩

/-- A tracer that finds no derivations at all. -/
def tr4 : Tracer := ⟨fun _ _ => [], fun _ _ => []⟩

/-- A conflict-free one-state automaton used where conflicts are supplied
directly. -/
def states4 : List State := [⟨[], []⟩]

/-- The production `A = "x"` of the order-dependence fixture. -/
def pA8 : Production := ⟨"A", [.Terminal "x"], 7⟩

/-- The production `B = "x"` of the order-dependence fixture. -/
def pB8 : Production := ⟨"B", [.Terminal "x"], 8⟩

/-- The production `C = "x"` reduced by the order-dependence conflict. -/
def pC8 : Production := ⟨"C", [.Terminal "x"], 9⟩

/-- The LR(0) item `A = (*) "x"`. -/
def itA8 : LR0Item := ⟨pA8, 0⟩

/-- The LR(0) item `B = (*) "x"`. -/
def itB8 : LR0Item := ⟨pB8, 0⟩

/-- The example the backtrace of `A = (*) "x"` yields. -/
def eA8 : Example := ⟨[.Symbol (.Terminal "x")], 1, [⟨"A", 0, 1⟩]⟩

/-- The example the backtrace of `B = (*) "x"` yields; it has the same
symbols and cursor as `eA8` but different reductions. -/
def eB8 : Example := ⟨[.Symbol (.Terminal "x")], 1, [⟨"B", 0, 1⟩]⟩

/-- The reduce-side example of the order-dependence fixture. -/
def eR8 : Example := ⟨[.Symbol (.Terminal "x")], 1, [⟨"C", 0, 1⟩]⟩

/-- The shift conflict of the order-dependence fixture. -/
def c8 : Conflict := ⟨0, pC8, .Shift 1⟩

/-- A state containing two distinct items that both shift `"x"`. -/
def st8 : State := ⟨[⟨pA8, 0, .EOF⟩, ⟨pB8, 0, .Terminal "y"⟩], []⟩

/-- A tracer giving each of the two shift items its own example and the
reduce side the matching example `eR8`. -/
def tr8 : Tracer :=
  ⟨fun _ it => if it = itA8 then [eA8] else [eB8], fun _ _ => [eR8]⟩

/-- The grouped shift items of `st8` in first-insertion order. -/
def groups8 : List (LR0Item × LookaheadSet) :=
  [(itA8, [.EOF]), (itB8, [.Terminal "y"])]

/-- The same grouped map enumerated in the opposite order. -/
def groups8rev : List (LR0Item × LookaheadSet) :=
  [(itB8, [.Terminal "y"]), (itA8, [.EOF])]

/-- The one-state automaton of the order-dependence fixture. -/
def states8 : List State := [st8]

/-- An action example with no reductions, for the fallback fixture. -/
def exIA9 : Example := ⟨[.Symbol (.Terminal "p")], 0, []⟩

/-- A reduce example with one reduction, for the fallback fixture. -/
def exIR9 : Example := ⟨[.Symbol (.Terminal "q")], 1, [⟨"N", 0, 1⟩]⟩

/-- The reduce/reduce conflict of the fallback fixture. -/
def c9 : Conflict := ⟨0, pX5, .Reduce pW⟩

/-- A tracer whose examples match in no tier, forcing the fallback pairing. -/
def tr9 : Tracer :=
  ⟨fun _ _ => [],
   fun _ item => if item.production = pW then [exIA9] else [exIR9]⟩

/-- A conflict registered on state 3 of the ordering fixture. -/
def c7a : Conflict := ⟨3, pX5, .Reduce pW⟩

/-- A second conflict registered on state 3 of the ordering fixture. -/
def c7b : Conflict := ⟨3, pW, .Reduce pX5⟩

/-- The conflict registered on state 7 of the ordering fixture. -/
def c7c : Conflict := ⟨7, pX5, .Reduce pW⟩

/-- An eight-state automaton with two conflicts on state 3 and one on
state 7. -/
def states7 : List State :=
  [⟨[], []⟩, ⟨[], []⟩, ⟨[], []⟩,
   ⟨[], [(.EOF, [c7a, c7b])]⟩,
   ⟨[], []⟩, ⟨[], []⟩, ⟨[], []⟩,
   ⟨[], [(.Terminal "z", [c7c])]⟩]

/-- The messages the ordering fixture produces. -/
def msgs7 : List Message := (report_errors g0 tr4 states7).getD []

/-! General helper lemmas about the list operations the embedding uses. -/

theorem head?_some_mem {α : Type _} {l : List α} {a : α} (h : l.head? = some a) :
    a ∈ l := by
  cases l <;> simp_all

theorem head?_isSome_iff {α : Type _} (l : List α) :
    l.head?.isSome = true ↔ l ≠ [] := by
  cases l <;> simp

theorem mem_cartesian_product {α β : Type _} {xs : List α} {ys : List β}
    {p : α × β} : p ∈ cartesian_product xs ys ↔ p.1 ∈ xs ∧ p.2 ∈ ys := by
  obtain ⟨a, b⟩ := p
  simp [cartesian_product]

theorem mem_qualifying_ambiguity_pairs {ae re : List Example}
    {p : Example × Example} :
    p ∈ qualifying_ambiguity_pairs ae re ↔
      p.1 ∈ ae ∧ p.2 ∈ re ∧ p.1.symbols = p.2.symbols ∧
      p.1.cursor = p.2.cursor := by
  simp only [qualifying_ambiguity_pairs, List.mem_filter,
    mem_cartesian_product, decide_eq_true_eq, and_assoc]

theorem mem_qualifying_inline_pairs {ae re : List Example}
    {p : Example × Example} :
    p ∈ qualifying_inline_pairs ae re ↔
      p.1 ∈ ae ∧ p.2 ∈ re ∧ p.1.reductions.length = 2 ∧
      p.2.reductions.length = 2 ∧
      ¬ p.2.reductions[0]?.map Reduction.nonterminal =
          p.2.reductions[1]?.map Reduction.nonterminal ∧
      inner_suffix p.1 = inner_suffix p.2 := by
  simp only [qualifying_inline_pairs, List.mem_filter,
    mem_cartesian_product, decide_eq_true_eq, and_assoc]

theorem zip_head?_eq_some {α β : Type _} {l1 : List α} {l2 : List β}
    {a : α} {b : β} :
    (l1.zip l2).head? = some (a, b) ↔
      l1.head? = some a ∧ l2.head? = some b := by
  cases l1 <;> cases l2 <;> simp [and_assoc]

theorem zip_head?_eq_none {α β : Type _} {l1 : List α} {l2 : List β} :
    (l1.zip l2).head? = none ↔ l1 = [] ∨ l2 = [] := by
  cases l1 <;> cases l2 <;> simp

/-! Lemmas about the stable insertion sort. -/

theorem sublist_insert_by_len (e : Example) (s : List Example) :
    s.Sublist (insert_by_len e s) := by
  induction s with
  | nil => simp [insert_by_len]
  | cons f fs ih =>
    simp only [insert_by_len]
    split
    · exact List.Sublist.cons₂ f ih
    · exact List.Sublist.cons e (List.Sublist.refl _)

theorem perm_insert_by_len (e : Example) (s : List Example) :
    (insert_by_len e s).Perm (e :: s) := by
  induction s with
  | nil => exact List.Perm.refl _
  | cons f fs ih =>
    simp only [insert_by_len]
    split
    · exact (ih.cons f).trans (List.Perm.swap e f fs)
    · exact List.Perm.refl _

theorem perm_sort_by_len (l : List Example) : (sort_by_len l).Perm l := by
  induction l with
  | nil => exact List.Perm.refl _
  | cons e es ih =>
    exact (perm_insert_by_len e (sort_by_len es)).trans (ih.cons e)

theorem sorted_insert_by_len {s : List Example} (e : Example)
    (h : sorted_by_len s) : sorted_by_len (insert_by_len e s) := by
  induction s with
  | nil => simp [insert_by_len, sorted_by_len]
  | cons f fs ih =>
    rw [sorted_by_len, List.pairwise_cons] at h
    obtain ⟨hf, hfs⟩ := h
    simp only [insert_by_len]
    split
    · rename_i hlt
      rw [sorted_by_len, List.pairwise_cons]
      refine ⟨?_, ih hfs⟩
      intro y hy
      rcases List.mem_cons.1 ((perm_insert_by_len e fs).mem_iff.1 hy) with
        rfl | hy
      · exact Nat.le_of_lt hlt
      · exact hf y hy
    · rename_i hge
      rw [sorted_by_len, List.pairwise_cons]
      refine ⟨?_, ?_⟩
      · intro y hy
        rcases List.mem_cons.1 hy with rfl | hy
        · exact Nat.le_of_not_lt hge
        · exact le_trans (Nat.le_of_not_lt hge) (hf y hy)
      · exact List.pairwise_cons.2 ⟨hf, hfs⟩

theorem sorted_sort_by_len (l : List Example) :
    sorted_by_len (sort_by_len l) := by
  induction l with
  | nil => simp [sort_by_len, sorted_by_len]
  | cons e es ih => exact sorted_insert_by_len e ih

theorem pair_sublist_insert_by_len {x b : Example} {s : List Example}
    (hb : b ∈ s) (hlen : x.symbols.length ≤ b.symbols.length) :
    [x, b].Sublist (insert_by_len x s) := by
  induction s with
  | nil => cases hb
  | cons f fs ih =>
    simp only [insert_by_len]
    split
    · rename_i hlt
      rcases List.mem_cons.1 hb with rfl | hb
      · exact absurd (Nat.lt_of_le_of_lt hlen hlt) (Nat.lt_irrefl _)
      · exact (ih hb).cons f
    · exact List.Sublist.cons₂ x (List.singleton_sublist.2 hb)

theorem stable_sort_by_len {a b : Example} {l : List Example}
    (hlen : a.symbols.length ≤ b.symbols.length)
    (h : [a, b].Sublist l) : [a, b].Sublist (sort_by_len l) := by
  induction l with
  | nil => simp at h
  | cons x t ih =>
    cases h with
    | cons _ h2 =>
      exact (ih h2).trans (sublist_insert_by_len x (sort_by_len t))
    | cons₂ _ h2 =>
      exact pair_sublist_insert_by_len
        ((perm_sort_by_len t).mem_iff.2 (List.singleton_sublist.1 h2)) hlen

/-! Structural lemmas about the classifier. -/

theorem classify_eq_some_core {g : Grammar} {tr : Tracer} {states : List State}
    {la : Lookahead} {c : Conflict} {aex : List Example}
    (h : gather_action_examples tr states la c = some aex) :
    classify g tr states la c = some (classify_core g tr la c aex) := by
  simp [classify, h]

theorem classify_eq_none {g : Grammar} {tr : Tracer} {states : List State}
    {la : Lookahead} {c : Conflict}
    (h : gather_action_examples tr states la c = none) :
    classify g tr states la c = none := by
  simp [classify, h]

theorem classify_core_eq (g : Grammar) (tr : Tracer) (la : Lookahead)
    (c : Conflict) (aex : List Example) :
    classify_core g tr la c aex =
      (match (qualifying_ambiguity_pairs (sort_by_len aex)
          (sort_by_len (reduce_examples tr c.state c.production la))).head? with
       | some p => classify_ambiguity_pair la c p
       | none =>
         match (qualifying_inline_pairs (sort_by_len aex)
             (sort_by_len (reduce_examples tr c.state c.production la))).head? with
         | some q => classify_inline_pair g q
         | none =>
           match ((sort_by_len aex).zip
               (sort_by_len (reduce_examples tr c.state c.production la))).head? with
           | some ar => .InsufficientLookahead ar.1 ar.2
           | none => .Naive) := by
  simp only [classify_core, try_classify_ambiguity, try_classify_inline]
  rcases hA : (qualifying_ambiguity_pairs (sort_by_len aex)
      (sort_by_len (reduce_examples tr c.state c.production la))).head? with _ | p <;>
    simp only [hA, Option.map_none', Option.map_some']
  rcases hI : (qualifying_inline_pairs (sort_by_len aex)
      (sort_by_len (reduce_examples tr c.state c.production la))).head? with _ | q <;>
    simp only [hI, Option.map_none', Option.map_some']

theorem list_eq_three_iff {l : List Symbol} {a b d : Symbol} :
    (l.length = 3 ∧ l[0]? = some a ∧ l[1]? = some b ∧ l[2]? = some d) ↔
      l = [a, b, d] := by
  constructor
  · rintro ⟨h1, h2, h3, h4⟩
    obtain ⟨x, y, z, rfl⟩ := List.length_eq_three.1 h1
    simp at h2 h3 h4
    rw [h2, h3, h4]
  · rintro rfl
    simp

theorem classify_ambiguity_pair_eq (la : Lookahead) (c : Conflict)
    (p : Example × Example) :
    classify_ambiguity_pair la c p =
      (if precedence_pattern la c = true then
        .Precedence p.1 p.2 c.production.nonterminal
       else .Ambiguity p.1 p.2) := by
  obtain ⟨cs, cp, ca⟩ := c
  cases ca <;> cases la <;>
    simp only [classify_ambiguity_pair, precedence_pattern, Action.is_shift,
      Bool.false_and, Bool.true_and, if_neg Bool.false_ne_true, reduceIte]
  rename_i t
  by_cases hs : cp.symbols =
      [Symbol.Nonterminal cp.nonterminal, Symbol.Terminal t,
       Symbol.Nonterminal cp.nonterminal]
  · rw [if_pos (list_eq_three_iff.2 hs), if_pos (by simp [hs])]
  · rw [if_neg (fun hc => hs (list_eq_three_iff.1 hc)), if_neg (by simp [hs])]

theorem classify_ambiguity_pair_shape (la : Lookahead) (c : Conflict)
    (p : Example × Example) :
    classify_ambiguity_pair la c p = .Ambiguity p.1 p.2 ∨
    classify_ambiguity_pair la c p =
      .Precedence p.1 p.2 c.production.nonterminal := by
  rw [classify_ambiguity_pair_eq]
  split
  · exact Or.inr rfl
  · exact Or.inl rfl

theorem classify_inline_pair_shape (g : Grammar) (p : Example × Example) :
    (∃ nt s, classify_inline_pair g p = .SuggestQuestion p.1 p.2 nt s) ∨
    (∃ nt, classify_inline_pair g p = .SuggestInline p.1 p.2 nt) := by
  obtain ⟨p1, p2⟩ := p
  obtain ⟨syms, cur, reds⟩ := p2
  cases reds with
  | nil => exact Or.inr ⟨"", rfl⟩
  | cons r0 rest =>
    rcases hq : question_check (g.productions_for r0.nonterminal) with _ | s
    · exact Or.inr ⟨r0.nonterminal, by simp [classify_inline_pair, hq]⟩
    · exact Or.inl ⟨r0.nonterminal, s, by simp [classify_inline_pair, hq]⟩

theorem question_check_eq_some_iff {prods : List Production} {s : Symbol} :
    question_check prods = some s ↔ question_shape prods s := by
  constructor
  · intro h
    rcases prods with _ | ⟨a, _ | ⟨b, _ | ⟨x, t⟩⟩⟩ <;>
      try simp [question_check] at h
    rcases ha : a.symbols with _ | ⟨s1, _ | ⟨s2, t1⟩⟩ <;>
      rcases hb : b.symbols with _ | ⟨u1, _ | ⟨u2, t2⟩⟩ <;>
      simp only [question_check, ha, hb] at h
    all_goals
      first
        | exact Option.noConfusion h
        | (injection h with h2; subst h2; exact ⟨a, b, Or.inl rfl, ha, hb⟩)
        | (injection h with h2; subst h2; exact ⟨b, a, Or.inr rfl, hb, ha⟩)
  · rintro ⟨p, q, hpq | hpq, hp, hq⟩ <;> rw [hpq] <;>
      simp [question_check, hp, hq]

theorem report_error_not_lr1_core_isSome {la : Lookahead} {c : Conflict}
    {action reduce : Example} :
    (report_error_not_lr1_core la c action reduce).isSome = true ↔
      reduce.reductions ≠ [] := by
  cases hr : reduce.reductions <;>
    simp [report_error_not_lr1_core, hr]

theorem mem_keys_map_insert {m : List (LR0Item × LookaheadSet)}
    {k k2 : LR0Item} {x : Lookahead} :
    (∃ s, (k2, s) ∈ map_insert_lookahead m k x) ↔
      (∃ s, (k2, s) ∈ m) ∨ k2 = k := by
  induction m with
  | nil => simp [map_insert_lookahead]
  | cons hd rest ih =>
    obtain ⟨k3, s3⟩ := hd
    by_cases hk : k3 = k
    · subst hk
      rw [map_insert_lookahead, if_pos rfl]
      constructor
      · rintro ⟨s, hs⟩
        rcases List.mem_cons.1 hs with heq | hmem
        · exact Or.inr (congrArg Prod.fst heq)
        · exact Or.inl ⟨s, List.mem_cons_of_mem _ hmem⟩
      · rintro (⟨s, hs⟩ | heq)
        · rcases List.mem_cons.1 hs with heq | hmem
          · refine ⟨lookahead_set_insert s3 x, ?_⟩
            rw [show k2 = k3 from congrArg Prod.fst heq]
            exact List.mem_cons_self _ _
          · exact ⟨s, List.mem_cons_of_mem _ hmem⟩
        · refine ⟨lookahead_set_insert s3 x, ?_⟩
          rw [heq]
          exact List.mem_cons_self _ _
    · rw [map_insert_lookahead, if_neg hk]
      constructor
      · rintro ⟨s, hs⟩
        rcases List.mem_cons.1 hs with heq | hmem
        · exact Or.inl ⟨s, by rw [heq]; exact List.mem_cons_self _ _⟩
        · rcases ih.1 ⟨s, hmem⟩ with ⟨s2, h2⟩ | h2
          · exact Or.inl ⟨s2, List.mem_cons_of_mem _ h2⟩
          · exact Or.inr h2
      · rintro (⟨s, hs⟩ | heq)
        · rcases List.mem_cons.1 hs with heq | hmem
          · exact ⟨s, by rw [heq]; exact List.mem_cons_self _ _⟩
          · obtain ⟨s2, h2⟩ := ih.2 (Or.inl ⟨s, hmem⟩)
            exact ⟨s2, List.mem_cons_of_mem _ h2⟩
        · obtain ⟨s2, h2⟩ := ih.2 (Or.inr heq)
          exact ⟨s2, List.mem_cons_of_mem _ h2⟩

theorem mem_keys_foldl_insert {l : List Item}
    {m : List (LR0Item × LookaheadSet)} {k2 : LR0Item} :
    (∃ s, (k2, s) ∈ l.foldl
        (fun m i => map_insert_lookahead m i.to_lr0 i.lookahead) m) ↔
      (∃ s, (k2, s) ∈ m) ∨ ∃ i ∈ l, i.to_lr0 = k2 := by
  induction l generalizing m with
  | nil => simp
  | cons i t ih =>
    simp only [List.foldl_cons]
    rw [ih, mem_keys_map_insert]
    constructor
    · rintro ((h | h) | h)
      · exact Or.inl h
      · exact Or.inr ⟨i, List.mem_cons_self i t, h.symm⟩
      · obtain ⟨j, hj, hj2⟩ := h
        exact Or.inr ⟨j, List.mem_cons_of_mem i hj, hj2⟩
    · rintro (h | ⟨j, hj, hj2⟩)
      · exact Or.inl (Or.inl h)
      · rcases List.mem_cons.1 hj with rfl | hj
        · exact Or.inl (Or.inr hj2.symm)
        · exact Or.inr ⟨j, hj, hj2⟩

theorem mapM_option_eq_some {α β : Type _} {f : α → Option β} :
    ∀ {l : List α} {ys : List β}, l.mapM f = some ys →
      ys.length = l.length ∧
      ∀ (k : Nat) (hk : k < l.length) (hk2 : k < ys.length),
        f (l.get ⟨k, hk⟩) = some (ys.get ⟨k, hk2⟩) := by
  intro l
  induction l with
  | nil =>
    intro ys h
    rw [List.mapM_nil] at h
    injection h with h2
    subst h2
    exact ⟨rfl, fun k hk _ => absurd hk (by simp)⟩
  | cons a t ih =>
    intro ys h
    rw [List.mapM_cons] at h
    cases hfa : f a with
    | none => rw [hfa] at h; simp at h
    | some b =>
      rw [hfa] at h
      cases hmt : t.mapM f with
      | none => rw [hmt] at h; simp at h
      | some bs =>
        rw [hmt] at h
        simp only [Option.bind_eq_bind, Option.some_bind, Option.pure_def,
          Option.some.injEq] at h
        subst h
        obtain ⟨hl, hp⟩ := ih hmt
        refine ⟨by simp [hl], ?_⟩
        intro k hk hk2
        cases k with
        | zero => simpa using hfa
        | succ k =>
          simpa using hp k (by simpa using hk) (by simpa using hk2)

/-- C5 (amended): the lists returned by `shift_examples` and
`reduce_examples` are in discovery order; it is `classify` that sorts each
gathered list, through `sort_by_len`, before classification.  The sorted
list is ascending by symbol count, is a permutation of the gathered list,
and the sort is stable: any two examples in length order (in particular
equal-length ties) keep their relative discovery order. -/
theorem classify_sorts_examples_stably :
    ∀ l : List Example,
      sorted_by_len (sort_by_len l) ∧ (sort_by_len l).Perm l ∧
      (∀ a b : Example, a.symbols.length ≤ b.symbols.length →
        [a, b].Sublist l → [a, b].Sublist (sort_by_len l)) :=
  fun l => ⟨sorted_sort_by_len l, perm_sort_by_len l,
    fun _ _ hlen h => stable_sort_by_len hlen h⟩

/-- Witness for C5 (amended): the sort applied at a concrete unsorted
gathered list, and stability at a concrete equal-length tie. -/
theorem classify_sorts_examples_stably_witness :
    sorted_by_len (sort_by_len [exLong, exShort]) ∧
    [exTieA, exTieB].Sublist (sort_by_len [exTieA, exTieB]) :=
  ⟨(classify_sorts_examples_stably [exLong, exShort]).1,
   (classify_sorts_examples_stably [exTieA, exTieB]).2.2 exTieA exTieB
     (by decide) (by decide)⟩

/-- C5 counterexample: `shift_examples` itself returns the tracer's examples
unsorted — here a two-symbol example strictly before a one-symbol one. -/
theorem gatherers_return_unsorted_counterexample :
    shift_examples tr5 states5 (Lookahead.Terminal "x") c5 =
      some [exLong, exShort] ∧
    ¬ sorted_by_len [exLong, exShort] := by
  constructor
  · decide
  · intro h
    rw [sorted_by_len] at h
    exact absurd ((List.pairwise_cons.1 h).1 exShort (List.mem_cons_self _ _))
      (by decide)

/-- C10: the inlining tier ignores the lookahead and the conflict's action
kind, so its verdict is identical across calls that agree on the grammar and
the example lists; consequently `SuggestQuestion` (and, with a grammar where
the candidate nonterminal lacks the empty/singleton pair, `SuggestInline`)
is reachable for a reduce/reduce conflict under an `EOF` lookahead, unlike
`Precedence`. -/
theorem inline_tier_independent_of_lookahead_and_conflict :
    (∀ (g : Grammar) (la1 la2 : Lookahead) (c1 c2 : Conflict)
       (ae re : List Example),
       try_classify_inline g la1 c1 ae re =
         try_classify_inline g la2 c2 ae re) ∧
    c10.action = Action.Reduce pW ∧
    classify g10 tr10 states10 Lookahead.EOF c10 =
      some (.SuggestQuestion exA10 exR10 "Opt" (Symbol.Terminal "sym")) ∧
    classify g0 tr10 states10 Lookahead.EOF c10 =
      some (.SuggestInline exA10 exR10 "Opt") :=
  ⟨fun _ _ _ _ _ _ _ => rfl, rfl, by decide, by decide⟩

/-- C6: calling `shift_examples` with an `EOF` lookahead panics (modelled by
`none`); with any terminal lookahead this path does not panic: the grouped
items are exactly the LR(0) forms of the state's items that can shift the
lookahead terminal, and the result flattens every example the shift
backtrace of each grouped item yields. -/
theorem shift_examples_eof_panics_terminal_gathers
    (tr : Tracer) (states : List State) (c : Conflict) (t : TerminalString)
    (st : State) (h : states[c.state]? = some st) :
    shift_examples tr states Lookahead.EOF c = none ∧
    shift_examples tr states (Lookahead.Terminal t) c =
      (conflicting_shift_items st (Lookahead.Terminal t) c).map
        (shift_examples_from_groups tr c) ∧
    (∀ it : LR0Item,
       (∃ s, (it, s) ∈
           (conflicting_shift_items st (Lookahead.Terminal t) c).getD []) ↔
       ∃ i ∈ st.items, i.can_shift = true ∧
         i.production.symbols[i.index]? = some (Symbol.Terminal t) ∧
         i.to_lr0 = it) ∧
    (∀ e : Example,
       e ∈ shift_examples_from_groups tr c
           ((conflicting_shift_items st (Lookahead.Terminal t) c).getD []) ↔
       ∃ gp ∈ (conflicting_shift_items st (Lookahead.Terminal t) c).getD [],
         e ∈ tr.backtrace_shift c.state gp.1) := by
  refine ⟨?_, ?_, ?_, ?_⟩
  · simp [shift_examples, h, conflicting_shift_items]
  · simp [shift_examples, h]
  · intro it
    simp only [conflicting_shift_items, Option.getD_some]
    rw [mem_keys_foldl_insert]
    constructor
    · rintro (⟨s, hs⟩ | ⟨i, hi, hit⟩)
      · exact absurd hs (List.not_mem_nil _)
      · obtain ⟨hi1, hsym⟩ := List.mem_filter.1 hi
        obtain ⟨hi0, hcan⟩ := List.mem_filter.1 hi1
        exact ⟨i, hi0, hcan, of_decide_eq_true hsym, hit⟩
    · rintro ⟨i, hi0, hcan, hsym, hit⟩
      exact Or.inr ⟨i, List.mem_filter.2
        ⟨List.mem_filter.2 ⟨hi0, hcan⟩, decide_eq_true hsym⟩, hit⟩
  · intro e
    simp [shift_examples_from_groups, List.mem_flatMap]

/-- Witness for C6, at the concrete unsorted-gathering fixture. -/
theorem shift_examples_eof_panics_terminal_gathers_witness :
    shift_examples tr5 states5 Lookahead.EOF c5 = none ∧
    shift_examples tr5 states5 (Lookahead.Terminal "x") c5 =
      (conflicting_shift_items st5 (Lookahead.Terminal "x") c5).map
        (shift_examples_from_groups tr5 c5) :=
  ⟨(shift_examples_eof_panics_terminal_gathers tr5 states5 c5 "x" st5 rfl).1,
   (shift_examples_eof_panics_terminal_gathers tr5 states5 c5 "x" st5 rfl).2.1⟩

/-- C7: `report_errors` produces exactly one message per registered
(lookahead, conflict) pair, in enumeration order — states in index order,
conflicts in per-state registration order — and the k-th message is the
report of the k-th registered conflict. -/
theorem report_errors_one_message_per_conflict_in_order
    (g : Grammar) (tr : Tracer) (states : List State) (msgs : List Message)
    (h : report_errors g tr states = some msgs) :
    msgs.length = (registered_conflicts states).length ∧
    ∀ (k : Nat) (hk : k < (registered_conflicts states).length)
      (hk2 : k < msgs.length),
      report_error g tr states ((registered_conflicts states).get ⟨k, hk⟩).1
          ((registered_conflicts states).get ⟨k, hk⟩).2 =
        some (msgs.get ⟨k, hk2⟩) := by
  rw [report_errors] at h
  obtain ⟨hl, hp⟩ := mapM_option_eq_some h
  exact ⟨hl, fun k hk hk2 => hp k hk hk2⟩

/-- Witness for C7: the eight-state fixture with two conflicts on state 3
and one on state 7 yields exactly three messages, in that order. -/
theorem report_errors_one_message_per_conflict_in_order_witness :
    msgs7.length = (registered_conflicts states7).length ∧ msgs7.length = 3 :=
  ⟨(report_errors_one_message_per_conflict_in_order g0 tr4 states7 msgs7
      (by decide)).1, by decide⟩

/-- C8 (amended): classification is a pure function of its inputs including
the enumeration order of the deduplicated shift-item map, and that order
influences the result only through the sorted gathered action-example list;
`classify` on a shift conflict equals the enumeration-explicit classifier at
the modelled insertion order.  (The counterexample shows the order is not
used only for deduplication: it can change which example is cited.) -/
theorem classification_fixed_by_sorted_action_examples
    (g : Grammar) (tr : Tracer) (la : Lookahead) (c : Conflict)
    (groups1 groups2 : List (LR0Item × LookaheadSet))
    (h : sort_by_len (shift_examples_from_groups tr c groups1) =
      sort_by_len (shift_examples_from_groups tr c groups2)) :
    classify_from_groups g tr la c groups1 =
      classify_from_groups g tr la c groups2 ∧
    (∀ (states : List State) (st : State) (t : TerminalString)
       (groups : List (LR0Item × LookaheadSet)),
       states[c.state]? = some st → la = Lookahead.Terminal t →
       conflicting_shift_items st la c = some groups →
       c.action.is_shift = true →
       classify g tr states la c =
         some (classify_from_groups g tr la c groups)) := by
  constructor
  · rw [classify_from_groups, classify_from_groups, classify_core_eq,
      classify_core_eq, h]
  · intro states st t groups hst hla hgroups hshift
    subst hla
    rcases hact : c.action with tgt | p
    · have hg : gather_action_examples tr states (Lookahead.Terminal t) c =
          some (shift_examples_from_groups tr c groups) := by
        simp [gather_action_examples, hact, shift_examples, hst, hgroups]
      rw [classify_eq_some_core hg]
      rfl
    · rw [hact] at hshift
      simp [Action.is_shift] at hshift

/-- Witness for C8 (amended), at the order-dependence fixture. -/
theorem classification_fixed_by_sorted_action_examples_witness :
    classify_from_groups g0 tr8 (Lookahead.Terminal "x") c8 groups8 =
      classify_from_groups g0 tr8 (Lookahead.Terminal "x") c8 groups8 ∧
    classify g0 tr8 states8 (Lookahead.Terminal "x") c8 =
      some (classify_from_groups g0 tr8 (Lookahead.Terminal "x") c8 groups8) :=
  ⟨(classification_fixed_by_sorted_action_examples g0 tr8
      (Lookahead.Terminal "x") c8 groups8 groups8 rfl).1,
   (classification_fixed_by_sorted_action_examples g0 tr8
      (Lookahead.Terminal "x") c8 groups8 groups8 rfl).2 states8 st8 "x"
     groups8 rfl rfl (by decide) rfl⟩

/-- C8 counterexample: two enumeration orders of the same deduplicated
shift-item map classify the same conflict differently — the cited action
example changes — so hash-map iteration order is not used only for
deduplication. -/
theorem classification_depends_on_map_order_counterexample :
    conflicting_shift_items st8 (Lookahead.Terminal "x") c8 = some groups8 ∧
    groups8rev.Perm groups8 ∧
    classify_from_groups g0 tr8 (Lookahead.Terminal "x") c8 groups8 =
      .Ambiguity eA8 eR8 ∧
    classify_from_groups g0 tr8 (Lookahead.Terminal "x") c8 groups8rev =
      .Ambiguity eB8 eR8 ∧
    eA8 ≠ eB8 := by
  refine ⟨by decide, by decide, by decide, by decide, by decide⟩

/-- C1: the ambiguity tier classifies (as `Ambiguity` or `Precedence`)
exactly when some pair of the cartesian product of the sorted example lists
has equal symbol sequences and equal cursors; the pair used is the first
qualifying pair in cartesian-product order, and with no qualifying pair the
tier yields nothing and classification falls through. -/
theorem ambiguity_tier_exactly_on_matching_pairs
    (g : Grammar) (tr : Tracer) (states : List State) (la : Lookahead)
    (c : Conflict) (aex : List Example)
    (h : gather_action_examples tr states la c = some aex) :
    ((∃ cl, classify g tr states la c = some cl ∧
        cl.is_ambiguity_or_precedence = true) ↔
      ∃ a ∈ sort_by_len aex,
        ∃ r ∈ sort_by_len (reduce_examples tr c.state c.production la),
          a.symbols = r.symbols ∧ a.cursor = r.cursor) ∧
    (∀ p, (qualifying_ambiguity_pairs (sort_by_len aex)
        (sort_by_len (reduce_examples tr c.state c.production la))).head? =
          some p →
      classify g tr states la c = some (classify_ambiguity_pair la c p) ∧
      p.1 ∈ sort_by_len aex ∧
      p.2 ∈ sort_by_len (reduce_examples tr c.state c.production la) ∧
      p.1.symbols = p.2.symbols ∧ p.1.cursor = p.2.cursor) ∧
    (qualifying_ambiguity_pairs (sort_by_len aex)
        (sort_by_len (reduce_examples tr c.state c.production la)) = [] →
      try_classify_ambiguity la c (sort_by_len aex)
        (sort_by_len (reduce_examples tr c.state c.production la)) = none) := by
  have hcl := classify_eq_some_core (g := g) h
  refine ⟨⟨?_, ?_⟩, ?_, ?_⟩
  · rintro ⟨cl, hc, hshape⟩
    rw [hcl] at hc
    injection hc with hc
    subst hc
    rw [classify_core_eq] at hshape
    rcases hA : (qualifying_ambiguity_pairs (sort_by_len aex)
        (sort_by_len (reduce_examples tr c.state c.production la))).head? with
      _ | p
    · exfalso
      simp only [hA] at hshape
      rcases hI : (qualifying_inline_pairs (sort_by_len aex)
          (sort_by_len (reduce_examples tr c.state c.production la))).head? with
        _ | q
      · simp only [hI] at hshape
        rcases hz : ((sort_by_len aex).zip
            (sort_by_len (reduce_examples tr c.state c.production la))).head? with
          _ | ar <;>
          simp only [hz,
            ConflictClassification.is_ambiguity_or_precedence] at hshape <;>
          exact absurd hshape (by decide)
      · simp only [hI] at hshape
        rcases classify_inline_pair_shape g q with ⟨nt, s, hq⟩ | ⟨nt, hq⟩ <;>
          rw [hq] at hshape <;>
          simp [ConflictClassification.is_ambiguity_or_precedence] at hshape
    · have hp := head?_some_mem hA
      rw [mem_qualifying_ambiguity_pairs] at hp
      exact ⟨p.1, hp.1, p.2, hp.2.1, hp.2.2.1, hp.2.2.2⟩
  · rintro ⟨a, ha, r, hr, hsym, hcur⟩
    have hmem : (a, r) ∈ qualifying_ambiguity_pairs (sort_by_len aex)
        (sort_by_len (reduce_examples tr c.state c.production la)) :=
      mem_qualifying_ambiguity_pairs.2 ⟨ha, hr, hsym, hcur⟩
    obtain ⟨p, hp⟩ : ∃ p, (qualifying_ambiguity_pairs (sort_by_len aex)
        (sort_by_len (reduce_examples tr c.state c.production la))).head? =
          some p := by
      rcases hq2 : qualifying_ambiguity_pairs (sort_by_len aex)
          (sort_by_len (reduce_examples tr c.state c.production la)) with
        _ | ⟨x, xs⟩
      · rw [hq2] at hmem
        exact absurd hmem (List.not_mem_nil _)
      · exact ⟨x, rfl⟩
    refine ⟨classify_ambiguity_pair la c p, ?_, ?_⟩
    · rw [hcl, classify_core_eq]
      simp only [hp]
    · rcases classify_ambiguity_pair_shape la c p with hs | hs <;> rw [hs] <;>
        rfl
  · intro p hp
    refine ⟨?_, ?_⟩
    · rw [hcl, classify_core_eq]
      simp only [hp]
    · have hm := head?_some_mem hp
      rw [mem_qualifying_ambiguity_pairs] at hm
      exact ⟨hm.1, hm.2.1, hm.2.2.1, hm.2.2.2⟩
  · intro hnil
    rw [try_classify_ambiguity, hnil]
    rfl

/-- Witness for C1, at the precedence fixture: the first (only) qualifying
pair is cited and its symbol sequences agree. -/
theorem ambiguity_tier_exactly_on_matching_pairs_witness :
    classify gE trE statesE (Lookahead.Terminal "+") cE =
      some (classify_ambiguity_pair (Lookahead.Terminal "+") cE (exE, exE)) ∧
    (exE, exE).1.symbols = (exE, exE).2.symbols :=
  ⟨((ambiguity_tier_exactly_on_matching_pairs gE trE statesE
      (Lookahead.Terminal "+") cE [exE] (by decide)).2.1 (exE, exE)
      (by decide)).1,
   ((ambiguity_tier_exactly_on_matching_pairs gE trE statesE
      (Lookahead.Terminal "+") cE [exE] (by decide)).2.1 (exE, exE)
      (by decide)).2.2.2.1⟩

/-- C2: `classify` returns `Precedence` only under the three conditions —
shift action, terminal lookahead, reduce production shaped `T = T l T` with
`T` its own head — and any qualifying ambiguity pair for which the
conditions fail yields `Ambiguity` instead. -/
theorem precedence_requires_shift_terminal_self_pattern
    (g : Grammar) (tr : Tracer) (states : List State) (la : Lookahead)
    (c : Conflict) :
    (∀ s r nt, classify g tr states la c = some (.Precedence s r nt) →
      precedence_pattern la c = true ∧ nt = c.production.nonterminal) ∧
    (precedence_pattern la c = true ↔
      c.action.is_shift = true ∧
      ∃ term, la = Lookahead.Terminal term ∧
        c.production.symbols =
          [Symbol.Nonterminal c.production.nonterminal, Symbol.Terminal term,
           Symbol.Nonterminal c.production.nonterminal]) ∧
    (∀ (aex : List Example) (p : Example × Example),
      gather_action_examples tr states la c = some aex →
      (qualifying_ambiguity_pairs (sort_by_len aex)
          (sort_by_len (reduce_examples tr c.state c.production la))).head? =
        some p →
      precedence_pattern la c = false →
      classify g tr states la c = some (.Ambiguity p.1 p.2)) := by
  refine ⟨?_, ?_, ?_⟩
  · intro s r nt hc
    rcases hg : gather_action_examples tr states la c with _ | aex
    · rw [classify_eq_none hg] at hc
      exact Option.noConfusion hc
    · rw [classify_eq_some_core (g := g) hg] at hc
      injection hc with hc
      rw [classify_core_eq] at hc
      rcases hA : (qualifying_ambiguity_pairs (sort_by_len aex)
          (sort_by_len (reduce_examples tr c.state c.production la))).head? with
        _ | p
      · exfalso
        simp only [hA] at hc
        rcases hI : (qualifying_inline_pairs (sort_by_len aex)
            (sort_by_len (reduce_examples tr c.state c.production la))).head? with
          _ | q
        · simp only [hI] at hc
          rcases hz : ((sort_by_len aex).zip
              (sort_by_len (reduce_examples tr c.state c.production la))).head? with
            _ | ar <;> simp only [hz] at hc <;>
            exact ConflictClassification.noConfusion hc
        · simp only [hI] at hc
          rcases classify_inline_pair_shape g q with ⟨nt2, s2, hq⟩ | ⟨nt2, hq⟩ <;>
            rw [hq] at hc <;> exact ConflictClassification.noConfusion hc
      · simp only [hA] at hc
        rw [classify_ambiguity_pair_eq] at hc
        split at hc
        · rename_i hpat
          injection hc with h1 h2 h3
          exact ⟨hpat, h3.symm⟩
        · exact ConflictClassification.noConfusion hc
  · constructor
    · intro hp
      cases la with
      | EOF => simp [precedence_pattern] at hp
      | Terminal t =>
        simp only [precedence_pattern, Bool.and_eq_true,
          decide_eq_true_eq] at hp
        exact ⟨hp.1, t, rfl, hp.2⟩
    · rintro ⟨h1, term, rfl, h3⟩
      simp only [precedence_pattern, Bool.and_eq_true, decide_eq_true_eq]
      exact ⟨h1, h3⟩
  · intro aex p hg hp hfalse
    rw [classify_eq_some_core (g := g) hg, classify_core_eq]
    simp only [hp]
    rw [classify_ambiguity_pair_eq, hfalse]
    simp

/-- Witness for C2: the `E = E "+" E` fixture classifies as `Precedence`,
and indeed satisfies the three conditions. -/
theorem precedence_requires_shift_terminal_self_pattern_witness :
    precedence_pattern (Lookahead.Terminal "+") cE = true :=
  ((precedence_requires_shift_terminal_self_pattern gE trE statesE
      (Lookahead.Terminal "+") cE).1 exE exE "E" (by decide)).1

/-- C3: in the inlining tier, for the selected qualifying pair, the verdict
is `SuggestQuestion` citing the single symbol exactly when the first
reduction's nonterminal has exactly two productions, one empty and one a
single symbol; every other production shape yields `SuggestInline` citing
the nonterminal. -/
theorem inline_tier_question_iff_empty_singleton_pair
    (g : Grammar) (la : Lookahead) (c : Conflict) (ae re : List Example)
    (a r : Example) (r0 : Reduction)
    (hhead : (qualifying_inline_pairs ae re).head? = some (a, r))
    (hr0 : r.reductions.head? = some r0) :
    (∀ s, try_classify_inline g la c ae re =
        some (.SuggestQuestion a r r0.nonterminal s) ↔
      question_shape (g.productions_for r0.nonterminal) s) ∧
    ((∀ s, ¬ question_shape (g.productions_for r0.nonterminal) s) →
      try_classify_inline g la c ae re =
        some (.SuggestInline a r r0.nonterminal)) := by
  obtain ⟨tail, htail⟩ := List.head?_eq_some_iff.1 hr0
  have hcip : classify_inline_pair g (a, r) =
      (match question_check (g.productions_for r0.nonterminal) with
       | some s => .SuggestQuestion a r r0.nonterminal s
       | none => .SuggestInline a r r0.nonterminal) := by
    simp only [classify_inline_pair, htail]
  constructor
  · intro s
    rw [try_classify_inline, hhead, Option.map_some', hcip]
    rcases hq : question_check (g.productions_for r0.nonterminal) with _ | s2
    · simp only [hq]
      constructor
      · intro heq
        exact absurd heq (by simp)
      · intro hsh
        have := question_check_eq_some_iff.2 hsh
        rw [hq] at this
        exact Option.noConfusion this
    · simp only [hq]
      constructor
      · intro heq
        injection heq with heq
        have hs2 : s2 = s := by
          injection heq
        subst hs2
        exact question_check_eq_some_iff.1 hq
      · intro hsh
        have := question_check_eq_some_iff.2 hsh
        rw [hq] at this
        injection this with h2
        rw [h2]
  · intro hnone
    rw [try_classify_inline, hhead, Option.map_some', hcip]
    rcases hq : question_check (g.productions_for r0.nonterminal) with _ | s2
    · simp only [hq]
    · exact absurd (question_check_eq_some_iff.1 hq) (hnone s2)

/-- Witness for C3: the `Opt = "sym" | ()` fixture makes the tier suggest
the `?` operator on the single symbol. -/
theorem inline_tier_question_iff_empty_singleton_pair_witness :
    try_classify_inline g10 Lookahead.EOF c10 [exA10] [exR10] =
      some (.SuggestQuestion exA10 exR10 "Opt" (Symbol.Terminal "sym")) :=
  ((inline_tier_question_iff_empty_singleton_pair g10 Lookahead.EOF c10
      [exA10] [exR10] exA10 exR10 ⟨"Opt", 0, 1⟩ (by decide) (by decide)).1
    (Symbol.Terminal "sym")).2
    ⟨pOptEmpty, pOptSym, Or.inl (by decide), by decide, by decide⟩

/-- C4: when both tiers fall through, `classify` pairs the first element of
each sorted list as `InsufficientLookahead`, and with either list empty it
returns `Naive` (and does not panic). -/
theorem fallback_insufficient_lookahead_or_naive
    (g : Grammar) (tr : Tracer) (states : List State) (la : Lookahead)
    (c : Conflict) (aex : List Example)
    (h : gather_action_examples tr states la c = some aex)
    (h1 : try_classify_ambiguity la c (sort_by_len aex)
        (sort_by_len (reduce_examples tr c.state c.production la)) = none)
    (h2 : try_classify_inline g la c (sort_by_len aex)
        (sort_by_len (reduce_examples tr c.state c.production la)) = none) :
    (∀ a r, (sort_by_len aex).head? = some a →
      (sort_by_len (reduce_examples tr c.state c.production la)).head? =
        some r →
      classify g tr states la c = some (.InsufficientLookahead a r)) ∧
    ((sort_by_len aex = [] ∨
        sort_by_len (reduce_examples tr c.state c.production la) = []) →
      classify g tr states la c = some .Naive) := by
  rw [try_classify_ambiguity, Option.map_eq_none'] at h1
  rw [try_classify_inline, Option.map_eq_none'] at h2
  constructor
  · intro a r ha hr
    have hz : ((sort_by_len aex).zip
        (sort_by_len (reduce_examples tr c.state c.production la))).head? =
          some (a, r) := zip_head?_eq_some.2 ⟨ha, hr⟩
    rw [classify_eq_some_core (g := g) h, classify_core_eq]
    simp only [h1, h2, hz]
  · intro hor
    have hz : ((sort_by_len aex).zip
        (sort_by_len (reduce_examples tr c.state c.production la))).head? =
          none := zip_head?_eq_none.2 hor
    rw [classify_eq_some_core (g := g) h, classify_core_eq]
    simp only [h1, h2, hz]

/-- Witness for C4: a tracer that finds nothing yields `Naive`. -/
theorem fallback_insufficient_lookahead_or_naive_witness :
    classify g0 tr4 states4 Lookahead.EOF c4 = some .Naive :=
  (fallback_insufficient_lookahead_or_naive g0 tr4 states4 Lookahead.EOF c4
      [] (by decide) (by decide) (by decide)).2 (Or.inl (by decide))

/-- C9: provided every example gathered by `reduce_examples` carries at
least one reduction, the reduce example cited by a `SuggestInline`,
`SuggestQuestion` or `InsufficientLookahead` classification has a non-empty
reductions list, so the `reduce.reductions[0]` access of the shared
not-LR(1) message builder cannot panic. -/
theorem cited_reduce_example_reductions_nonempty
    (g : Grammar) (tr : Tracer) (states : List State) (la : Lookahead)
    (c : Conflict)
    (H : ∀ e ∈ reduce_examples tr c.state c.production la,
      e.reductions ≠ []) :
    (∀ s r nt, classify g tr states la c = some (.SuggestInline s r nt) →
      r.reductions ≠ [] ∧
      (report_error_not_lr1_core la c s r).isSome = true) ∧
    (∀ s r nt sym,
      classify g tr states la c = some (.SuggestQuestion s r nt sym) →
      r.reductions ≠ [] ∧
      (report_error_not_lr1_core la c s r).isSome = true) ∧
    (∀ a r, classify g tr states la c = some (.InsufficientLookahead a r) →
      r.reductions ≠ [] ∧
      (report_error_not_lr1_core la c a r).isSome = true) := by
  rcases hg : gather_action_examples tr states la c with _ | aex
  · refine ⟨?_, ?_, ?_⟩
    · intro s r nt hc
      rw [classify_eq_none hg] at hc
      exact Option.noConfusion hc
    · intro s r nt sym hc
      rw [classify_eq_none hg] at hc
      exact Option.noConfusion hc
    · intro a r hc
      rw [classify_eq_none hg] at hc
      exact Option.noConfusion hc
  · have hcl := classify_eq_some_core (g := g) hg
    refine ⟨?_, ?_, ?_⟩
    · intro s r nt hc
      rw [hcl] at hc
      injection hc with hc
      rw [classify_core_eq] at hc
      rcases hA : (qualifying_ambiguity_pairs (sort_by_len aex)
          (sort_by_len (reduce_examples tr c.state c.production la))).head? with
        _ | p
      · simp only [hA] at hc
        rcases hI : (qualifying_inline_pairs (sort_by_len aex)
            (sort_by_len (reduce_examples tr c.state c.production la))).head? with
          _ | q
        · simp only [hI] at hc
          rcases hz : ((sort_by_len aex).zip
              (sort_by_len (reduce_examples tr c.state c.production la))).head? with
            _ | ar <;> simp only [hz] at hc <;>
            exact ConflictClassification.noConfusion hc
        · simp only [hI] at hc
          have hq2 := head?_some_mem hI
          rw [mem_qualifying_inline_pairs] at hq2
          have hlen : q.2.reductions.length = 2 := hq2.2.2.2.1
          rcases hqr : q.2.reductions with _ | ⟨r0, rest⟩
          · rw [hqr] at hlen
            exact absurd hlen (by simp)
          · have hred : classify_inline_pair g q =
                (match question_check (g.productions_for r0.nonterminal) with
                 | some s2 => .SuggestQuestion q.1 q.2 r0.nonterminal s2
                 | none => .SuggestInline q.1 q.2 r0.nonterminal) := by
              simp only [classify_inline_pair, hqr]
            rw [hred] at hc
            rcases hq3 : question_check (g.productions_for r0.nonterminal) with
              _ | s2 <;> simp only [hq3] at hc
            · injection hc with e1 e2 e3
              subst e2
              refine ⟨by rw [hqr]; simp, ?_⟩
              rw [report_error_not_lr1_core_isSome, hqr]
              simp
            · exact ConflictClassification.noConfusion hc
      · simp only [hA] at hc
        rcases classify_ambiguity_pair_shape la c p with hs | hs <;>
          rw [hs] at hc <;> exact ConflictClassification.noConfusion hc
    · intro s r nt sym hc
      rw [hcl] at hc
      injection hc with hc
      rw [classify_core_eq] at hc
      rcases hA : (qualifying_ambiguity_pairs (sort_by_len aex)
          (sort_by_len (reduce_examples tr c.state c.production la))).head? with
        _ | p
      · simp only [hA] at hc
        rcases hI : (qualifying_inline_pairs (sort_by_len aex)
            (sort_by_len (reduce_examples tr c.state c.production la))).head? with
          _ | q
        · simp only [hI] at hc
          rcases hz : ((sort_by_len aex).zip
              (sort_by_len (reduce_examples tr c.state c.production la))).head? with
            _ | ar <;> simp only [hz] at hc <;>
            exact ConflictClassification.noConfusion hc
        · simp only [hI] at hc
          have hq2 := head?_some_mem hI
          rw [mem_qualifying_inline_pairs] at hq2
          have hlen : q.2.reductions.length = 2 := hq2.2.2.2.1
          rcases hqr : q.2.reductions with _ | ⟨r0, rest⟩
          · rw [hqr] at hlen
            exact absurd hlen (by simp)
          · have hred : classify_inline_pair g q =
                (match question_check (g.productions_for r0.nonterminal) with
                 | some s2 => .SuggestQuestion q.1 q.2 r0.nonterminal s2
                 | none => .SuggestInline q.1 q.2 r0.nonterminal) := by
              simp only [classify_inline_pair, hqr]
            rw [hred] at hc
            rcases hq3 : question_check (g.productions_for r0.nonterminal) with
              _ | s2 <;> simp only [hq3] at hc
            · exact ConflictClassification.noConfusion hc
            · injection hc with e1 e2 e3 e4
              subst e2
              refine ⟨by rw [hqr]; simp, ?_⟩
              rw [report_error_not_lr1_core_isSome, hqr]
              simp
      · simp only [hA] at hc
        rcases classify_ambiguity_pair_shape la c p with hs | hs <;>
          rw [hs] at hc <;> exact ConflictClassification.noConfusion hc
    · intro a r hc
      rw [hcl] at hc
      injection hc with hc
      rw [classify_core_eq] at hc
      rcases hA : (qualifying_ambiguity_pairs (sort_by_len aex)
          (sort_by_len (reduce_examples tr c.state c.production la))).head? with
        _ | p
      · simp only [hA] at hc
        rcases hI : (qualifying_inline_pairs (sort_by_len aex)
            (sort_by_len (reduce_examples tr c.state c.production la))).head? with
          _ | q
        · simp only [hI] at hc
          rcases hz : ((sort_by_len aex).zip
              (sort_by_len (reduce_examples tr c.state c.production la))).head? with
            _ | ar
          · simp only [hz] at hc
            exact ConflictClassification.noConfusion hc
          · simp only [hz] at hc
            obtain ⟨a1, a2⟩ := ar
            injection hc with e1 e2
            subst e2
            have hr2 : a2 ∈ sort_by_len
                (reduce_examples tr c.state c.production la) :=
              head?_some_mem (zip_head?_eq_some.1 hz).2
            have hr3 : a2 ∈ reduce_examples tr c.state c.production la :=
              (perm_sort_by_len _).mem_iff.1 hr2
            refine ⟨H a2 hr3, ?_⟩
            rw [report_error_not_lr1_core_isSome]
            exact H a2 hr3
        · simp only [hI] at hc
          rcases classify_inline_pair_shape g q with ⟨nt2, s2, hq⟩ | ⟨nt2, hq⟩ <;>
            rw [hq] at hc <;> exact ConflictClassification.noConfusion hc
      · simp only [hA] at hc
        rcases classify_ambiguity_pair_shape la c p with hs | hs <;>
          rw [hs] at hc <;> exact ConflictClassification.noConfusion hc

/-- Witness for C9: at the fallback fixture the cited reduce example indeed
carries a reduction and the builder step succeeds. -/
theorem cited_reduce_example_reductions_nonempty_witness :
    exIR9.reductions ≠ [] ∧
    (report_error_not_lr1_core Lookahead.EOF c9 exIA9 exIR9).isSome = true :=
  (cited_reduce_example_reductions_nonempty g0 tr9 states4 Lookahead.EOF c9
      (by decide)).2.2 exIA9 exIR9 (by decide)

end Lalrpop
